import Mathlib

/-!
Verification of the provider-abstraction and caching core of the `knock`
command-line translator.  The definitions below are a shallow embedding of
the Rust sources (`src/cache.rs`, `src/main.rs`, `src/client.rs`); machine
integers are modelled as `Nat` reduced modulo `2 ^ 64` where the Rust code
works on `u64`.
-/

/-! ## 64-bit arithmetic primitives (model of Rust `u64` operations) -/

def add64 (a b : Nat) : Nat := (a + b) % 2 ^ 64

def xor64 (a b : Nat) : Nat := (a ^^^ b) % 2 ^ 64

def rotl64 (x b : Nat) : Nat := ((x <<< b) ||| (x >>> (64 - b))) % 2 ^ 64

/-! ## SipHash-1-3 (the algorithm behind Rust `DefaultHasher`)

`std::collections::hash_map::DefaultHasher` is SipHash-1-3 with both key
words zero.  `Hash for str` feeds the UTF-8 bytes of the string followed by
a single `0xff` byte into the hasher.  The embedding below follows the
reference SipHash round structure with one compression round and three
finalization rounds.
-/

structure SipState where
  v0 : Nat
  v1 : Nat
  v2 : Nat
  v3 : Nat
deriving Repr, DecidableEq

def sipRound (s : SipState) : SipState :=
  let v0 := add64 s.v0 s.v1
  let v1 := rotl64 s.v1 13
  let v1 := xor64 v1 v0
  let v0 := rotl64 v0 32
  let v2 := add64 s.v2 s.v3
  let v3 := rotl64 s.v3 16
  let v3 := xor64 v3 v2
  let v0 := add64 v0 v3
  let v3 := rotl64 v3 21
  let v3 := xor64 v3 v0
  let v2 := add64 v2 v1
  let v1 := rotl64 v1 17
  let v1 := xor64 v1 v2
  let v2 := rotl64 v2 32
  ⟨v0, v1, v2, v3⟩

def sipCompress (s : SipState) (m : Nat) : SipState :=
  let s := { s with v3 := xor64 s.v3 m }
  let s := sipRound s
  { s with v0 := xor64 s.v0 m }

/-- Little-endian word from a byte list (first byte is least significant). -/
def wordLE (bs : List Nat) : Nat := bs.foldr (fun b acc => b + 256 * acc) 0

/-- Consume full 8-byte blocks, returning the state and the remaining tail. -/
def sipBlocks : SipState → List Nat → SipState × List Nat
  | s, b0 :: b1 :: b2 :: b3 :: b4 :: b5 :: b6 :: b7 :: rest =>
      sipBlocks (sipCompress s (wordLE [b0, b1, b2, b3, b4, b5, b6, b7])) rest
  | s, tail => (s, tail)

def sipFinish (s : SipState) (tail : List Nat) (totalLen : Nat) : Nat :=
  let b := ((totalLen % 256) <<< 56) ||| wordLE tail
  let s := sipCompress s b
  let s := { s with v2 := xor64 s.v2 255 }
  let s := sipRound (sipRound (sipRound s))
  xor64 (xor64 (xor64 s.v0 s.v1) s.v2) s.v3

def sipHash13 (msg : List Nat) : Nat :=
  let s0 : SipState :=
    ⟨xor64 0 0x736f6d6570736575, xor64 0 0x646f72616e646f6d,
     xor64 0 0x6c7967656e657261, xor64 0 0x7465646279746573⟩
  let p := sipBlocks s0 msg
  sipFinish p.1 p.2 msg.length

/-! ## UTF-8 encoding (model of Rust `str::as_bytes` on valid strings)

A Lean `Char` is a unicode scalar value, exactly like a Rust `char`, and a
Lean `String` is a sequence of scalar values, exactly like a Rust `String`;
its byte representation is the standard UTF-8 encoding below (written with
division and remainder, which agree with the bit operations Rust uses on
these ranges).
-/

def utf8EncodeScalar (v : Nat) : List Nat :=
  if v < 0x80 then [v]
  else if v < 0x800 then [0xc0 + v / 64, 0x80 + v % 64]
  else if v < 0x10000 then
    [0xe0 + v / 4096, 0x80 + (v / 64) % 64, 0x80 + v % 64]
  else
    [0xf0 + v / 262144, 0x80 + (v / 4096) % 64, 0x80 + (v / 64) % 64,
     0x80 + v % 64]

def utf8Encode (cs : List Char) : List Nat :=
  (cs.map (fun c => utf8EncodeScalar c.toNat)).flatten

/-! ## UTF-8 decoding (model of Rust `String::from_utf8` validation)

`String::from_utf8` accepts exactly well-formed UTF-8: no bytes `0x80-0xc1`
or `0xf5-0xff` in lead position, continuation bytes in `0x80-0xbf`, the
restricted second-byte ranges after `0xe0`, `0xed`, `0xf0`, `0xf4` that
rule out overlong forms and surrogates, and no truncated sequence. -/

def isCont (b : Nat) : Bool := 128 ≤ b && b < 192

def utf8DecodeChar : List Nat → Option (Nat × List Nat)
  | [] => none
  | b0 :: rest =>
    if b0 < 0x80 then some (b0, rest)
    else if 0xc2 ≤ b0 ∧ b0 ≤ 0xdf then
      match rest with
      | b1 :: r =>
          if isCont b1 then some ((b0 - 0xc0) * 64 + (b1 - 0x80), r) else none
      | [] => none
    else if 0xe0 ≤ b0 ∧ b0 ≤ 0xef then
      match rest with
      | b1 :: b2 :: r =>
          if ((if b0 = 0xe0 then 0xa0 ≤ b1 && b1 ≤ 0xbf
               else if b0 = 0xed then 0x80 ≤ b1 && b1 ≤ 0x9f
               else isCont b1) && isCont b2) = true then
            some ((b0 - 0xe0) * 4096 + (b1 - 0x80) * 64 + (b2 - 0x80), r)
          else none
      | _ => none
    else if 0xf0 ≤ b0 ∧ b0 ≤ 0xf4 then
      match rest with
      | b1 :: b2 :: b3 :: r =>
          if ((if b0 = 0xf0 then 0x90 ≤ b1 && b1 ≤ 0xbf
               else if b0 = 0xf4 then 0x80 ≤ b1 && b1 ≤ 0x8f
               else isCont b1) && isCont b2 && isCont b3) = true then
            some ((b0 - 0xf0) * 262144 + (b1 - 0x80) * 4096 +
                  (b2 - 0x80) * 64 + (b3 - 0x80), r)
          else none
      | _ => none
    else none

def utf8DecodeAux : Nat → List Nat → Option (List Char)
  | _, [] => some []
  | 0, _ :: _ => none
  | fuel + 1, bs =>
    match utf8DecodeChar bs with
    | none => none
    | some (v, rest) => (utf8DecodeAux fuel rest).map (fun cs => Char.ofNat v :: cs)

def utf8Decode (bs : List Nat) : Option (List Char) := utf8DecodeAux bs.length bs

/-- The byte stream `DefaultHasher` receives for one hashed `&str` field:
the UTF-8 bytes followed by the `0xff` terminator byte. -/
def strHashBytes (s : String) : List Nat := utf8Encode s.data ++ [255]

/-! ## Lower-hex formatting (model of Rust `format!` with `:x` on `u64`)

`{:x}` prints the minimal lowercase hexadecimal digits, with no zero
padding, and prints `0` for zero.  The fuel argument 16 suffices for every
value below `2 ^ 64`.
-/

def hexDigit (d : Nat) : Char :=
  if d < 10 then Char.ofNat (48 + d) else Char.ofNat (87 + d)

def toHexAux : Nat → Nat → List Char → List Char
  | 0, _, acc => acc
  | fuel + 1, n, acc =>
      if n = 0 then acc
      else toHexAux fuel (n / 16) (hexDigit (n % 16) :: acc)

def toHex (n : Nat) : String :=
  if n = 0 then "0" else String.mk (toHexAux 16 n [])

/-! ## `Cache::generate_key` (src/cache.rs lines 30-40)

Hashes the four fields in order `query, os, shell, mode` through one
`DefaultHasher` and formats the 64-bit result with `{:x}`.
-/

def Cache.generate_key (query os shell mode : String) : String :=
  toHex (sipHash13
    (strHashBytes query ++ strHashBytes os ++ strHashBytes shell ++
     strHashBytes mode))

/-! ## The sled store (src/cache.rs)

Modelled from the spec: the sled crate is external to this repository; the
spec describes it as an embedded on-disk key/value store with exact-key
lookup and unconditional last-writer-wins upsert, holding raw bytes.  It is
embedded as an association list where an upsert prepends and a lookup
returns the first match. -/

abbrev Store := List (String × List Nat)

def storeLookup (st : Store) (k : String) : Option (List Nat) := List.lookup k st

def storeUpsert (st : Store) (k : String) (v : List Nat) : Store := (k, v) :: st

/-- Body of `Cache::get` (src/cache.rs lines 18-24): the sled read result is
`db.get(key)`; the Rust chain `.ok().flatten().and_then(from_utf8(..).ok())`
turns a read failure or a miss into `None` and decodes otherwise. -/
def Cache.getFrom (res : Except String (Option (List Nat))) : Option String :=
  (res.toOption.join).bind (fun bytes => (utf8Decode bytes).map String.mk)

/-- Model of `Cache::get` on a store whose read succeeds. -/
def Cache.get (st : Store) (k : String) : Option String :=
  Cache.getFrom (.ok (storeLookup st k))

/-- Model of `Cache::insert` (src/cache.rs lines 26-28): stores the UTF-8 bytes of
the response under the key. -/
def Cache.insert (st : Store) (k v : String) : Store :=
  storeUpsert st k (utf8Encode v.data)

/-- Model of `Cache::insert` with the sled write outcome made explicit: the Rust
code discards the `Result` (`let _ = self.db.insert(..)`), so a failed
write leaves the store unchanged and raises nothing. -/
def Cache.insertResult (writeOk : Bool) (st : Store) (k v : String) : Store :=
  if writeOk then Cache.insert st k v else st

inductive LoadOutcome where
  | ok
  | panic (msg : String)
deriving Repr, DecidableEq

/-- Model of `Cache::load` (src/cache.rs lines 13-16): `sled::open(..).expect(..)`
panics with the given message when the store cannot be opened. -/
def Cache.load (openResult : Except String Unit) : LoadOutcome :=
  match openResult with
  | .ok _ => .ok
  | .error _ => .panic "Failed to open cache database"

/-- Model of `Path::join` for the relative, non-empty components used here. -/
def pathJoin (a b : String) : String := if a = "" then b else a ++ "/" ++ b

/-- Model of `Cache::cache_path` (src/cache.rs lines 8-11): `HOME`, or `"."` when
the variable is absent, joined with `.knock` and `cache`. -/
def Cache.cache_path (home : Option String) : String :=
  pathJoin (pathJoin (home.getD ".") ".knock") "cache"

/-! ## Request pipeline (src/main.rs) -/

inductive RequestMode where
  | Standard
  | Verbose
  | Alt
  | Explain
deriving Repr, DecidableEq

structure ShellContext where
  os : String
  shell : String
  cwd : String
deriving Repr, DecidableEq

/-- Modelled from the spec: `context.rs` is not under src/.  The spec says
`as_prompt_context` renders a compact, deterministic textual block
embedding the three fields; every theorem below holds for an arbitrary
rendering of this shape. -/
def ShellContext.as_prompt_context (c : ShellContext) : String :=
  "OS: " ++ c.os ++ "\nShell: " ++ c.shell ++ "\nDirectory: " ++ c.cwd

/-- The textual tag `gen_prompt` appends to the request
(src/main.rs lines 99-104). -/
def mode_tag : RequestMode → String
  | .Standard => ""
  | .Verbose => " [verbose]"
  | .Alt => " [alt]"
  | .Explain => ""

/-- Model of `gen_prompt` (src/main.rs lines 98-111). -/
def gen_prompt (context : ShellContext) (input : String) (mode : RequestMode) :
    String :=
  context.as_prompt_context ++ "\n\n<request>" ++ input ++ mode_tag mode ++
    "</request>"

/-- Which of the two instruction templates is selected; the templates are
two fixed distinct prose constants (`INSTRUCTIONS`, `EXPLAIN_INSTRUCTIONS`)
whose wording no claim depends on. -/
inductive InstructionTemplate where
  | standard
  | explain
deriving Repr, DecidableEq

/-- Model of `get_instructions` (src/main.rs lines 113-118). -/
def get_instructions : RequestMode → InstructionTemplate
  | .Explain => .explain
  | _ => .standard

/-- Model of `get_max_tokens` (src/main.rs lines 120-125). -/
def get_max_tokens : RequestMode → Nat
  | .Standard => 256
  | .Verbose | .Alt | .Explain => 512

/-- The mode string handed to `Cache::generate_key`
(src/main.rs lines 166-171). -/
def mode_str : RequestMode → String
  | .Standard => "standard"
  | .Verbose => "verbose"
  | .Alt => "alt"
  | .Explain => "explain"

/-- Model of `conduit::RequestOptions` as used in main.rs; the `f32` temperature
field (always the literal 0.2) is not modelled. -/
structure RequestOptions where
  max_tokens : Nat
  model : Option String
deriving Repr, DecidableEq

/-- The configured provider behind `conduit::request`: external crate,
abstracted as a function from the dispatched instruction template, prompt
and options to a result. -/
abbrev ProviderFn := InstructionTemplate → String → RequestOptions →
  Except String String

/-- The process cache handle together with the health of its sled device:
`readFail` makes every `db.get` return `Err`, `writeOk = false` makes every
`db.insert` return `Err`. -/
structure CacheDb where
  store : Store
  readFail : Option String
  writeOk : Bool

def CacheDb.get (db : CacheDb) (k : String) : Option String :=
  Cache.getFrom
    (match db.readFail with
     | some e => .error e
     | none => .ok (storeLookup db.store k))

def CacheDb.insert (db : CacheDb) (k v : String) : CacheDb :=
  { db with store := Cache.insertResult db.writeOk db.store k v }

def CacheDb.healthy (st : Store) : CacheDb := ⟨st, none, true⟩

structure RunResult where
  text : String
  db : CacheDb
  providerCalls : Nat
  promptsBuilt : Nat

inductive Outcome where
  | ok (r : RunResult)
  | panic (msg : String)

/-- The key `main` derives (src/main.rs line 175): the input together with
the context fields and the mode string of src/main.rs lines 166-171. -/
def derivedKey (input : String) (context : ShellContext)
    (mode : RequestMode) : String :=
  Cache.generate_key input context.os context.shell (mode_str mode)

/-- The key `explain_command` derives (src/main.rs line 251), with the
literal mode string `"explain"`. -/
def explainKey (command : String) (context : ShellContext) : String :=
  Cache.generate_key command context.os context.shell "explain"

/-- The orchestrator of `main` (src/main.rs lines 166-194): derive the key,
consult the cache, and on a miss build the prompt, dispatch the provider
(`.expect("Error getting response")` panics on failure) and write back. -/
def runRequest (provider : ProviderFn) (context : ShellContext)
    (input : String) (mode : RequestMode) (db : CacheDb) : Outcome :=
  let cache_key := derivedKey input context mode
  match db.get cache_key with
  | some cached => .ok ⟨cached, db, 0, 0⟩
  | none =>
    let prompt := gen_prompt context input mode
    let options : RequestOptions := ⟨get_max_tokens mode, none⟩
    match provider (get_instructions mode) prompt options with
    | .error _ => .panic "Error getting response"
    | .ok response => .ok ⟨response, db.insert cache_key response, 1, 1⟩

/-- Model of `explain_command` (src/main.rs lines 248-270): identical pipeline with
the literal mode string `"explain"` and `RequestMode::Explain`. -/
def runExplain (provider : ProviderFn) (context : ShellContext)
    (command : String) (db : CacheDb) : Outcome :=
  let cache_key := explainKey command context
  match db.get cache_key with
  | some cached => .ok ⟨cached, db, 0, 0⟩
  | none =>
    let prompt := gen_prompt context command RequestMode.Explain
    let options : RequestOptions :=
      ⟨get_max_tokens RequestMode.Explain, none⟩
    match provider (get_instructions RequestMode.Explain) prompt options with
    | .error _ => .panic "Error getting response"
    | .ok response => .ok ⟨response, db.insert cache_key response, 1, 1⟩

/-! ## The Anthropic client variant (src/client.rs lines 158-196) -/

structure AnthropicMessage where
  role : String
  content : String
deriving Repr, DecidableEq

structure AnthropicRequest where
  model : String
  max_tokens : Nat
  system : InstructionTemplate
  messages : List AnthropicMessage
deriving Repr, DecidableEq

structure AnthropicContent where
  text : String
deriving Repr, DecidableEq

structure AnthropicResponse where
  content : List AnthropicContent
deriving Repr, DecidableEq

/-- Outcome of the HTTP POST: transport failure, or a response with a
success flag, a body text and an optional parse of the body as
`AnthropicResponse`. -/
inductive HttpOutcome where
  | fail (e : String)
  | resp (success : Bool) (body : String) (json : Option AnthropicResponse)

structure AnthropicCallResult where
  result : Except String String
  httpCalled : Bool

/-- Model of `RequestClient::request_anthropic` (src/client.rs lines 158-196): the
environment variable is read first and a missing key returns the error
`"ANTHROPIC_API_KEY not set"` before the HTTP request exists; afterwards a
non-success status yields the body-carrying error, an empty content list
yields `"Empty response from Anthropic"`, and otherwise the first content
block text is returned. -/
def request_anthropic (env : String → Option String)
    (anthropic_model : String) (context : ShellContext) (input : String)
    (mode : RequestMode) (http : AnthropicRequest → HttpOutcome) :
    AnthropicCallResult :=
  match env "ANTHROPIC_API_KEY" with
  | none => ⟨.error "ANTHROPIC_API_KEY not set", false⟩
  | some _api_key =>
    let prompt := gen_prompt context input mode
    let request_body : AnthropicRequest :=
      ⟨anthropic_model, get_max_tokens mode, get_instructions mode,
       [⟨"user", prompt⟩]⟩
    match http request_body with
    | .fail e => ⟨.error e, true⟩
    | .resp false body _ =>
        ⟨.error ("Anthropic API error: " ++ body), true⟩
    | .resp true _ none => ⟨.error "invalid response body", true⟩
    | .resp true _ (some response_body) =>
      match response_body.content.head? with
      | some c => ⟨.ok c.text, true⟩
      | none => ⟨.error "Empty response from Anthropic", true⟩

theorem utf8DecodeChar_encodeScalar (v : Nat) (hv : Nat.isValidChar v)
    (rest : List Nat) :
    utf8DecodeChar (utf8EncodeScalar v ++ rest) = some (v, rest) := by
  by_cases h1 : v < 0x80
  · rw [utf8EncodeScalar, if_pos h1]
    simp only [List.cons_append, List.nil_append, utf8DecodeChar, if_pos h1]
  · by_cases h2 : v < 0x800
    · rw [utf8EncodeScalar, if_neg h1, if_pos h2]
      simp only [List.cons_append, List.nil_append, utf8DecodeChar]
      rw [if_neg (by omega), if_pos (by omega : 0xc2 ≤ 0xc0 + v / 64 ∧ 0xc0 + v / 64 ≤ 0xdf)]
      rw [if_pos (by simp only [isCont, Bool.and_eq_true, decide_eq_true_eq]; omega)]
      have hval : (0xc0 + v / 64 - 0xc0) * 64 + (0x80 + v % 64 - 0x80) = v := by omega
      rw [hval]
    · by_cases h3 : v < 0x10000
      · rw [utf8EncodeScalar, if_neg h1, if_neg h2, if_pos h3]
        simp only [List.cons_append, List.nil_append, utf8DecodeChar]
        rw [if_neg (by omega), if_neg (by omega), if_pos (by omega : 0xe0 ≤ 0xe0 + v / 4096 ∧ 0xe0 + v / 4096 ≤ 0xef)]
        have hvrange : v < 0xd800 ∨ (0xdfff < v ∧ v < 0x110000) := hv
        have hcond : ((if 0xe0 + v / 4096 = 0xe0 then 0xa0 ≤ 0x80 + v / 64 % 64 && 0x80 + v / 64 % 64 ≤ 0xbf
               else if 0xe0 + v / 4096 = 0xed then 0x80 ≤ 0x80 + v / 64 % 64 && 0x80 + v / 64 % 64 ≤ 0x9f
               else isCont (0x80 + v / 64 % 64)) && isCont (0x80 + v % 64)) = true := by
          split
          case isTrue h => simp only [isCont, Bool.and_eq_true, decide_eq_true_eq]; omega
          case isFalse h =>
            split
            case isTrue h' =>
              simp only [isCont, Bool.and_eq_true, decide_eq_true_eq]; omega
            case isFalse h' =>
              simp only [isCont, Bool.and_eq_true, decide_eq_true_eq]; omega
        rw [if_pos hcond]
        have hval : (0xe0 + v / 4096 - 0xe0) * 4096 + (0x80 + v / 64 % 64 - 0x80) * 64 + (0x80 + v % 64 - 0x80) = v := by omega
        rw [hval]
      · rw [utf8EncodeScalar, if_neg h1, if_neg h2, if_neg h3]
        have h4 : v < 0x110000 := by
          rcases hv with hs | ⟨hs1, hs2⟩ <;> omega
        simp only [List.cons_append, List.nil_append, utf8DecodeChar]
        rw [if_neg (by omega), if_neg (by omega), if_neg (by omega),
          if_pos (by omega : 0xf0 ≤ 0xf0 + v / 262144 ∧ 0xf0 + v / 262144 ≤ 0xf4)]
        have hcond : ((if 0xf0 + v / 262144 = 0xf0 then 0x90 ≤ 0x80 + v / 4096 % 64 && 0x80 + v / 4096 % 64 ≤ 0xbf
               else if 0xf0 + v / 262144 = 0xf4 then 0x80 ≤ 0x80 + v / 4096 % 64 && 0x80 + v / 4096 % 64 ≤ 0x8f
               else isCont (0x80 + v / 4096 % 64)) && isCont (0x80 + v / 64 % 64) && isCont (0x80 + v % 64)) = true := by
          split
          case isTrue h => simp only [isCont, Bool.and_eq_true, decide_eq_true_eq]; omega
          case isFalse h =>
            split
            case isTrue h' =>
              simp only [isCont, Bool.and_eq_true, decide_eq_true_eq]; omega
            case isFalse h' =>
              simp only [isCont, Bool.and_eq_true, decide_eq_true_eq]; omega
        rw [if_pos hcond]
        have hval : (0xf0 + v / 262144 - 0xf0) * 262144 + (0x80 + v / 4096 % 64 - 0x80) * 4096 + (0x80 + v / 64 % 64 - 0x80) * 64 + (0x80 + v % 64 - 0x80) = v := by omega
        rw [hval]

theorem utf8EncodeScalar_ne_nil (v : Nat) : utf8EncodeScalar v ≠ [] := by
  rw [utf8EncodeScalar]
  split
  · simp
  · split
    · simp
    · split <;> simp

theorem utf8DecodeAux_encode (cs : List Char) :
    ∀ fuel, (utf8Encode cs).length ≤ fuel →
      utf8DecodeAux fuel (utf8Encode cs) = some cs := by
  induction cs with
  | nil => intro fuel _; cases fuel <;> rfl
  | cons c cs ih =>
    intro fuel hfuel
    have henc : utf8Encode (c :: cs) = utf8EncodeScalar c.toNat ++ utf8Encode cs := by
      simp [utf8Encode]
    rw [henc] at hfuel ⊢
    have hne : utf8EncodeScalar c.toNat ≠ [] := utf8EncodeScalar_ne_nil _
    have hlen : 1 ≤ (utf8EncodeScalar c.toNat).length := by
      cases h : utf8EncodeScalar c.toNat with
      | nil => exact absurd h hne
      | cons a l => simp
    simp only [List.length_append] at hfuel
    obtain ⟨f, rfl⟩ : ∃ f, fuel = f + 1 := by
      cases fuel with
      | zero => omega
      | succ f => exact ⟨f, rfl⟩
    obtain ⟨b, bs, hb⟩ : ∃ b bs, utf8EncodeScalar c.toNat ++ utf8Encode cs = b :: bs := by
      cases h : utf8EncodeScalar c.toNat with
      | nil => exact absurd h hne
      | cons a l => exact ⟨a, l ++ utf8Encode cs, by simp [h]⟩
    rw [hb]
    have hdec : utf8DecodeChar (b :: bs) = some (c.toNat, utf8Encode cs) := by
      rw [← hb]; exact utf8DecodeChar_encodeScalar c.toNat c.valid _
    simp only [utf8DecodeAux, hdec, ih f (by omega), Option.map_some',
      Char.ofNat_toNat]

theorem utf8Decode_encode (cs : List Char) :
    utf8Decode (utf8Encode cs) = some cs :=
  utf8DecodeAux_encode cs _ (Nat.le_refl _)

/-! ## Helper lemmas -/

theorem sipHash13_lt (msg : List Nat) : sipHash13 msg < 2 ^ 64 :=
  Nat.mod_lt _ (by norm_num)

theorem toHexAux_length_le (fuel : Nat) :
    ∀ n acc, (toHexAux fuel n acc).length ≤ fuel + acc.length := by
  induction fuel with
  | zero => intro n acc; simp [toHexAux]
  | succ f ih =>
    intro n acc
    rw [toHexAux]
    split
    · omega
    · have := ih (n / 16) (hexDigit (n % 16) :: acc)
      simp at this
      omega

theorem toHexAux_length_ge (fuel : Nat) :
    ∀ n acc, acc.length ≤ (toHexAux fuel n acc).length := by
  induction fuel with
  | zero => intro n acc; simp [toHexAux]
  | succ f ih =>
    intro n acc
    rw [toHexAux]
    split
    · omega
    · have := ih (n / 16) (hexDigit (n % 16) :: acc)
      simp at this
      omega

theorem hexDigit_mem (d : Nat) (hd : d < 16) :
    hexDigit d ∈ ("0123456789abcdef").data := by
  have hall : ∀ x < 16, hexDigit x ∈ ("0123456789abcdef").data := by decide
  exact hall d hd

theorem toHexAux_chars (fuel : Nat) :
    ∀ n acc, (∀ c ∈ acc, c ∈ ("0123456789abcdef").data) →
      ∀ c ∈ toHexAux fuel n acc, c ∈ ("0123456789abcdef").data := by
  induction fuel with
  | zero => intro n acc hacc; simpa [toHexAux] using hacc
  | succ f ih =>
    intro n acc hacc
    rw [toHexAux]
    split
    · exact hacc
    · refine ih (n / 16) (hexDigit (n % 16) :: acc) ?_
      intro c hc
      rcases List.mem_cons.mp hc with h | h
      · subst h; exact hexDigit_mem _ (Nat.mod_lt _ (by norm_num))
      · exact hacc c h

theorem toHex_length_ge (n : Nat) : 1 ≤ (toHex n).length := by
  rw [toHex]
  split
  · decide
  · show 1 ≤ (toHexAux 16 n []).length
    rw [toHexAux, if_neg ‹¬ n = 0›]
    have := toHexAux_length_ge 15 (n / 16) [hexDigit (n % 16)]
    simpa using this

theorem toHex_length_le (n : Nat) : (toHex n).length ≤ 16 := by
  rw [toHex]
  split
  · decide
  · show (toHexAux 16 n []).length ≤ 16
    have := toHexAux_length_le 16 n []
    simpa using this

theorem toHex_chars (n : Nat) :
    ∀ c ∈ (toHex n).data, c ∈ ("0123456789abcdef").data := by
  rw [toHex]
  split
  · decide
  · show ∀ c ∈ (toHexAux 16 n []), c ∈ _
    exact toHexAux_chars 16 n [] (by simp)

/-! ## Claims -/

/-- C5: for every key `k` and UTF-8 string `v`, `insert(k, v)` followed by
`get(k)` on the same cache store returns exactly `v`, byte for byte: the
store holds the UTF-8 bytes of `v` and decoding them restores `v`. -/
theorem C5_insert_then_get (st : Store) (k v : String) :
    Cache.get (Cache.insert st k v) k = some v := by
  simp [Cache.get, Cache.insert, Cache.getFrom, storeLookup, storeUpsert,
    Except.toOption, utf8Decode_encode]

/-- C6: `Cache::get` yields `none` on a miss, on a storage read failure and
on a decode failure; malformed stored bytes are absent, not an error. -/
theorem C6_get_never_errors (st : Store) (k e : String) (bytes : List Nat) :
    Cache.getFrom (Except.error e) = none ∧
    Cache.getFrom (Except.ok none) = none ∧
    (utf8Decode bytes = none → Cache.getFrom (Except.ok (some bytes)) = none) ∧
    (storeLookup st k = none → Cache.get st k = none) := by
  refine ⟨rfl, rfl, fun hdec => ?_, fun hmiss => ?_⟩
  · simp [Cache.getFrom, Except.toOption, hdec]
  · simp [Cache.get, Cache.getFrom, Except.toOption, hmiss]

theorem C6_get_never_errors_witness :
    Cache.getFrom (Except.error "io error") = none ∧
    Cache.getFrom (Except.ok none) = none ∧
    Cache.getFrom (Except.ok (some [255])) = none ∧
    Cache.get [] "k" = none := by
  have h := C6_get_never_errors [] "k" "io error" [255]
  exact ⟨h.1, h.2.1, h.2.2.1 (by decide), h.2.2.2 rfl⟩

/-- C10: with `HOME` unset the cache path falls back to `.knock/cache`
relative to the current working directory (the `"."` component), and
`cache_path` is total: with `HOME` set it is the path under the home
directory. -/
theorem C10_cache_path_fallback :
    Cache.cache_path none = "./.knock/cache" ∧
    Cache.cache_path (some "/home/user") = "/home/user/.knock/cache" := by
  constructor <;> rfl

/-- C9 counterexample: the claim that all keys share one length fails —
`{:x}` does not zero-pad, and these two inputs give a 15 and a 16 digit
key respectively. -/
theorem C9_counterexample :
    (Cache.generate_key "query0" "linux" "bash" "standard").length ≠
      (Cache.generate_key "ls" "linux" "bash" "standard").length := by
  decide

/-- C9 amended: every key is a nonempty lowercase-hex digest of a 64-bit
hash of at most 16 digits, but without zero padding, so the width varies
with the hash value. -/
theorem C9_amended (q os sh m : String) :
    1 ≤ (Cache.generate_key q os sh m).length ∧
    (Cache.generate_key q os sh m).length ≤ 16 ∧
    ∀ c ∈ (Cache.generate_key q os sh m).data,
      c ∈ ("0123456789abcdef").data := by
  exact ⟨toHex_length_ge _, toHex_length_le _, toHex_chars _⟩

/-- C2 counterexample: component sensitivity cannot hold universally — the
key space is the 64-bit digest range, so by pigeonhole two distinct
queries (with the other components fixed) share a key. -/
theorem C2_counterexample :
    ¬ ∀ (q1 q2 os shell mode : String), q1 ≠ q2 →
        Cache.generate_key q1 os shell mode ≠
          Cache.generate_key q2 os shell mode := by
  intro h
  obtain ⟨m, n, hmn, hf⟩ := Finite.exists_ne_map_eq_of_infinite
    (fun n : ℕ => (⟨sipHash13
        (strHashBytes (String.mk (List.replicate n 'a')) ++
          strHashBytes "macos" ++ strHashBytes "zsh" ++
          strHashBytes "standard"), sipHash13_lt _⟩ : Fin (2 ^ 64)))
  have hq : String.mk (List.replicate m 'a') ≠
      String.mk (List.replicate n 'a') := by
    intro he
    apply hmn
    have hlen := congrArg (fun s => s.data.length) he
    simpa using hlen
  exact h _ _ "macos" "zsh" "standard" hq
    (congrArg toHex (congrArg Fin.val hf))

/-- C2 amended: `generate_key` is deterministic, and each single-component
change at the fixture `("list files", "macos", "zsh", "standard")` changes
the key — in particular the `"standard"` vs `"verbose"` fixtures differ —
though collision freedom cannot hold for all inputs. -/
theorem C2_amended (q1 q2 os1 os2 sh1 sh2 m1 m2 : String)
    (hq : q1 = q2) (hos : os1 = os2) (hsh : sh1 = sh2) (hm : m1 = m2) :
    Cache.generate_key q1 os1 sh1 m1 = Cache.generate_key q2 os2 sh2 m2 ∧
    Cache.generate_key "list files" "macos" "zsh" "standard" ≠
      Cache.generate_key "list files" "macos" "zsh" "verbose" ∧
    Cache.generate_key "list files" "macos" "zsh" "standard" ≠
      Cache.generate_key "list dirs" "macos" "zsh" "standard" ∧
    Cache.generate_key "list files" "macos" "zsh" "standard" ≠
      Cache.generate_key "list files" "linux" "zsh" "standard" ∧
    Cache.generate_key "list files" "macos" "zsh" "standard" ≠
      Cache.generate_key "list files" "macos" "bash" "standard" := by
  subst hq hos hsh hm
  exact ⟨rfl, by decide, by decide, by decide, by decide⟩

theorem C2_amended_witness :
    Cache.generate_key "list files" "macos" "zsh" "standard" =
      Cache.generate_key "list files" "macos" "zsh" "standard" ∧
    Cache.generate_key "list files" "macos" "zsh" "standard" ≠
      Cache.generate_key "list files" "macos" "zsh" "verbose" ∧
    Cache.generate_key "list files" "macos" "zsh" "standard" ≠
      Cache.generate_key "list dirs" "macos" "zsh" "standard" ∧
    Cache.generate_key "list files" "macos" "zsh" "standard" ≠
      Cache.generate_key "list files" "linux" "zsh" "standard" ∧
    Cache.generate_key "list files" "macos" "zsh" "standard" ≠
      Cache.generate_key "list files" "macos" "bash" "standard" :=
  C2_amended "list files" "list files" "macos" "macos" "zsh" "zsh"
    "standard" "standard" rfl rfl rfl rfl

/-- C3 counterexample: a Standard request and an Explain request with the
same input, OS and shell derive different cache keys — the key hashes the
mode name (`"standard"` vs `"explain"`), not the empty prompt tag. -/
theorem C3_counterexample :
    derivedKey "ls" ⟨"linux", "bash", "/home/u"⟩ RequestMode.Standard ≠
      explainKey "ls" ⟨"linux", "bash", "/home/u"⟩ := by
  decide

/-- C3 amended: the key is computed from (input, context.os, context.shell,
mode name string) where the mode name is `"standard"`/`"verbose"`/`"alt"`
in `main` and the literal `"explain"` in `explain_command`; the prompt mode
tag is `""` for both Standard and Explain, but the derived keys differ. -/
theorem C3_amended :
    (∀ input context mode, derivedKey input context mode =
      Cache.generate_key input context.os context.shell (mode_str mode)) ∧
    mode_str RequestMode.Standard = "standard" ∧
    mode_str RequestMode.Explain = "explain" ∧
    (∀ command context, explainKey command context =
      Cache.generate_key command context.os context.shell "explain") ∧
    mode_tag RequestMode.Standard = "" ∧
    mode_tag RequestMode.Explain = "" ∧
    derivedKey "ls" ⟨"macos", "zsh", "/tmp"⟩ RequestMode.Standard ≠
      explainKey "ls" ⟨"macos", "zsh", "/tmp"⟩ := by
  refine ⟨fun _ _ _ => rfl, rfl, rfl, fun _ _ => rfl, rfl, rfl, by decide⟩

/-- C8: every prompt is the context block, a blank line, then
`<request>{input}{mode_tag}</request>`; the Verbose prompt ends with the
literal `" [verbose]</request>"` and the Standard prompt ends with
`"</request>"` with no tag inserted. -/
theorem C8_prompt_shape (context : ShellContext) (input : String) :
    (∀ mode, gen_prompt context input mode =
      context.as_prompt_context ++ "\n\n" ++
        ("<request>" ++ input ++ mode_tag mode ++ "</request>")) ∧
    mode_tag RequestMode.Standard = "" ∧
    mode_tag RequestMode.Explain = "" ∧
    mode_tag RequestMode.Verbose = " [verbose]" ∧
    mode_tag RequestMode.Alt = " [alt]" ∧
    (∃ pre, gen_prompt context input RequestMode.Verbose =
      pre ++ " [verbose]</request>") ∧
    gen_prompt context input RequestMode.Standard =
      context.as_prompt_context ++ "\n\n" ++
        ("<request>" ++ input ++ "</request>") ∧
    (∃ pre, gen_prompt context input RequestMode.Standard =
      pre ++ "</request>") := by
  refine ⟨fun mode => ?_, rfl, rfl, rfl, rfl,
    ⟨context.as_prompt_context ++ "\n\n<request>" ++ input, ?_⟩, ?_,
    ⟨context.as_prompt_context ++ "\n\n<request>" ++ input, ?_⟩⟩
  · apply String.ext
    simp only [gen_prompt, String.data_append, List.append_assoc]
    rfl
  · apply String.ext
    simp only [gen_prompt, String.data_append, List.append_assoc]
    rfl
  · apply String.ext
    simp only [gen_prompt, String.data_append, List.append_assoc]
    rfl
  · apply String.ext
    simp only [gen_prompt, String.data_append, List.append_assoc]
    rfl

/-- C7: the Anthropic variant with the `ANTHROPIC_API_KEY` environment
variable unset fails with the missing-credential error and performs no
HTTP call. -/
theorem C7_anthropic_credential (env : String → Option String) (m : String)
    (context : ShellContext) (input : String) (mode : RequestMode)
    (http : AnthropicRequest → HttpOutcome)
    (henv : env "ANTHROPIC_API_KEY" = none) :
    request_anthropic env m context input mode http =
      ⟨Except.error "ANTHROPIC_API_KEY not set", false⟩ := by
  rw [request_anthropic, henv]

theorem C7_anthropic_credential_witness :
    request_anthropic (fun _ => none) "claude-sonnet" ⟨"linux", "bash", "/"⟩
      "list files" RequestMode.Standard (fun _ => HttpOutcome.fail "net") =
      ⟨Except.error "ANTHROPIC_API_KEY not set", false⟩ :=
  C7_anthropic_credential _ _ _ _ _ _ rfl

/-- C4 counterexample: the claim says an inability to open the store does
not crash the request, but `Cache::load` panics when the open fails. -/
theorem C4_counterexample :
    Cache.load (Except.error "could not open store") =
      LoadOutcome.panic "Failed to open cache database" := rfl

/-- C4 amended: a failing sled read degrades to a cache miss, a failing
sled write is discarded, and a request on a store whose reads and writes
all fail still returns the provider result; but an open failure in
`Cache::load` panics and aborts the request. -/
theorem C4_amended (e : String) (st : Store) (k v : String)
    (provider : ProviderFn) (context : ShellContext) (input : String)
    (mode : RequestMode) (resp : String)
    (hprov : provider (get_instructions mode) (gen_prompt context input mode)
      ⟨get_max_tokens mode, none⟩ = Except.ok resp) :
    Cache.getFrom (Except.error e) = none ∧
    Cache.insertResult false st k v = st ∧
    runRequest provider context input mode ⟨st, some e, false⟩ =
      Outcome.ok ⟨resp, ⟨st, some e, false⟩, 1, 1⟩ ∧
    (∀ e2, Cache.load (Except.error e2) =
      LoadOutcome.panic "Failed to open cache database") := by
  refine ⟨rfl, rfl, ?_, fun _ => rfl⟩
  rw [runRequest]
  show (match CacheDb.get ⟨st, some e, false⟩ (derivedKey input context mode)
      with
    | some cached => Outcome.ok ⟨cached, ⟨st, some e, false⟩, 0, 0⟩
    | none =>
      match provider (get_instructions mode) (gen_prompt context input mode)
        ⟨get_max_tokens mode, none⟩ with
      | Except.error _ => Outcome.panic "Error getting response"
      | Except.ok response => Outcome.ok
          ⟨response, CacheDb.insert ⟨st, some e, false⟩
            (derivedKey input context mode) response, 1, 1⟩) =
    Outcome.ok ⟨resp, ⟨st, some e, false⟩, 1, 1⟩
  rw [hprov]
  rfl

theorem C4_amended_witness :
    Cache.getFrom (Except.error "disk gone") = none ∧
    Cache.insertResult false [] "k" "v" = [] ∧
    runRequest (fun _ _ _ => Except.ok "ls -la") ⟨"linux", "bash", "/"⟩
      "list files" RequestMode.Standard ⟨[], some "disk gone", false⟩ =
      Outcome.ok ⟨"ls -la", ⟨[], some "disk gone", false⟩, 1, 1⟩ ∧
    (∀ e2, Cache.load (Except.error e2) =
      LoadOutcome.panic "Failed to open cache database") :=
  C4_amended "disk gone" [] "k" "v" (fun _ _ _ => Except.ok "ls -la")
    ⟨"linux", "bash", "/"⟩ "list files" RequestMode.Standard "ls -la" rfl

/-- C1: on a cache hit the orchestrator returns the cached text with no
prompt built and no provider call; on a miss a successful provider call is
cached under the derived key and returned, and a second identical request
is then answered from the cache with no further provider call. -/
theorem C1_cache_short_circuit (provider : ProviderFn)
    (context : ShellContext) (input : String) (mode : RequestMode)
    (db : CacheDb) :
    (∀ cached, db.get (derivedKey input context mode) = some cached →
      runRequest provider context input mode db =
        Outcome.ok ⟨cached, db, 0, 0⟩) ∧
    (∀ resp, db.get (derivedKey input context mode) = none →
      provider (get_instructions mode) (gen_prompt context input mode)
        ⟨get_max_tokens mode, none⟩ = Except.ok resp →
      runRequest provider context input mode db = Outcome.ok
        ⟨resp, db.insert (derivedKey input context mode) resp, 1, 1⟩ ∧
      (db.readFail = none → db.writeOk = true →
        runRequest provider context input mode
          (db.insert (derivedKey input context mode) resp) = Outcome.ok
          ⟨resp, db.insert (derivedKey input context mode) resp, 0, 0⟩)) := by
  constructor
  · intro cached hhit
    rw [runRequest]
    show (match db.get (derivedKey input context mode) with
      | some cached => Outcome.ok ⟨cached, db, 0, 0⟩
      | none =>
        match provider (get_instructions mode) (gen_prompt context input mode)
          ⟨get_max_tokens mode, none⟩ with
        | Except.error _ => Outcome.panic "Error getting response"
        | Except.ok response => Outcome.ok
            ⟨response, db.insert (derivedKey input context mode) response,
             1, 1⟩) = Outcome.ok ⟨cached, db, 0, 0⟩
    rw [hhit]
  · intro resp hmiss hprov
    constructor
    · rw [runRequest]
      show (match db.get (derivedKey input context mode) with
        | some cached => Outcome.ok ⟨cached, db, 0, 0⟩
        | none =>
          match provider (get_instructions mode)
            (gen_prompt context input mode)
            ⟨get_max_tokens mode, none⟩ with
          | Except.error _ => Outcome.panic "Error getting response"
          | Except.ok response => Outcome.ok
              ⟨response, db.insert (derivedKey input context mode) response,
               1, 1⟩) =
        Outcome.ok ⟨resp, db.insert (derivedKey input context mode) resp, 1, 1⟩
      rw [hmiss, hprov]
    · intro hread hwrite
      have hget : (db.insert (derivedKey input context mode) resp).get
          (derivedKey input context mode) = some resp := by
        simp [CacheDb.insert, CacheDb.get, hread, hwrite, Cache.insertResult,
          Cache.insert, Cache.getFrom, storeLookup, storeUpsert,
          Except.toOption, utf8Decode_encode]
      rw [runRequest]
      show (match (db.insert (derivedKey input context mode) resp).get
          (derivedKey input context mode) with
        | some cached => Outcome.ok
            ⟨cached, db.insert (derivedKey input context mode) resp, 0, 0⟩
        | none =>
          match provider (get_instructions mode)
            (gen_prompt context input mode)
            ⟨get_max_tokens mode, none⟩ with
          | Except.error _ => Outcome.panic "Error getting response"
          | Except.ok response => Outcome.ok
              ⟨response, (db.insert (derivedKey input context mode) resp).insert
                (derivedKey input context mode) response, 1, 1⟩) =
        Outcome.ok ⟨resp, db.insert (derivedKey input context mode) resp, 0, 0⟩
      rw [hget]

theorem C1_cache_short_circuit_witness :
    runRequest (fun _ _ _ => Except.ok "find . -type f -size +100M")
      ⟨"macos", "zsh", "/Users/u"⟩ "find large files" RequestMode.Standard
      (CacheDb.healthy []) = Outcome.ok
      ⟨"find . -type f -size +100M",
       (CacheDb.healthy []).insert
         (derivedKey "find large files" ⟨"macos", "zsh", "/Users/u"⟩
           RequestMode.Standard) "find . -type f -size +100M", 1, 1⟩ ∧
    runRequest (fun _ _ _ => Except.ok "find . -type f -size +100M")
      ⟨"macos", "zsh", "/Users/u"⟩ "find large files" RequestMode.Standard
      ((CacheDb.healthy []).insert
        (derivedKey "find large files" ⟨"macos", "zsh", "/Users/u"⟩
          RequestMode.Standard) "find . -type f -size +100M") = Outcome.ok
      ⟨"find . -type f -size +100M",
       (CacheDb.healthy []).insert
         (derivedKey "find large files" ⟨"macos", "zsh", "/Users/u"⟩
           RequestMode.Standard) "find . -type f -size +100M", 0, 0⟩ := by
  have h := (C1_cache_short_circuit
    (fun _ _ _ => Except.ok "find . -type f -size +100M")
    ⟨"macos", "zsh", "/Users/u"⟩ "find large files" RequestMode.Standard
    (CacheDb.healthy [])).2 "find . -type f -size +100M" rfl rfl
  exact ⟨h.1, h.2 rfl rfl⟩
